import Mathlib

/-!
Verification of the scheduling core of Project_Scheduler (src/src/logic.rs),
shallowly embedded in Lean 4.

Modelling conventions:
* `chrono::DateTime<FixedOffset>` is modelled by `DateTimeFO`: a UTC instant in
  whole seconds since the epoch together with a fixed offset in seconds.
  chrono compares `DateTime` values by their UTC instant, subtraction yields a
  `Duration` whose `num_seconds` is the difference of the instants, and
  `date_naive` takes the floor of the local-time seconds divided by 86400.
* `chrono::NaiveDate` is modelled as the day number (an `Int`).
* `uuid::Uuid` is modelled as a `String` (the code only ever calls
  `to_string()` on it, which here is the identity).
* Rust `i64` arithmetic is modelled on `Int`; none of the verified paths can
  overflow 64 bits for the inputs the claims quantify over, and the source
  performs no wrapping arithmetic.
* The Rust method `str::to_lowercase` is modelled by `String.toLower`, which
  agrees with it on ASCII strings.
* `Vec::sort_by(cmp)` (a stable sort putting the list in non-descending
  comparator order) is modelled by `List.mergeSort` with the boolean relation
  `cmp a b ≠ Ordering.gt`.
-/

namespace Scheduler

/-- UTC instant in seconds plus a fixed offset in seconds:
the model of `chrono::DateTime<FixedOffset>`. -/
structure DateTimeFO where
  instant : Int
  offset : Int
deriving DecidableEq, Repr

/-- Local calendar date (as a day number) of a datetime, in its stored
offset: the model of `DateTime::date_naive`. -/
def dateNaive (dt : DateTimeFO) : Int :=
  (dt.instant + dt.offset).fdiv 86400

/-- Add a number of minutes to a datetime: `dt + Duration::minutes(m)`. -/
def addMinutes (dt : DateTimeFO) (m : Int) : DateTimeFO :=
  { instant := dt.instant + m * 60, offset := dt.offset }

/-- Add a number of hours to a datetime: `dt + Duration::hours(h)`. -/
def addHours (dt : DateTimeFO) (h : Int) : DateTimeFO :=
  { instant := dt.instant + h * 3600, offset := dt.offset }

/-- models.rs: `TaskStatus`. -/
inductive TaskStatus where
  | Todo
  | InProgress
  | Done
deriving DecidableEq, Repr

/-- models.rs: `Task`. -/
structure Task where
  id : String
  title : String
  due_at : DateTimeFO
  duration_min : Int
  priority : Int
  status : TaskStatus
  created_at : DateTimeFO
  tags : Option (List String)
  notes : Option String
deriving DecidableEq, Repr

/-- models.rs: `DaySettings`. -/
structure DaySettings where
  day_start : String
  day_end : String
  focus_block_min : Int
deriving DecidableEq, Repr

/-- logic.rs: `ScoredTask`. -/
structure ScoredTask where
  task : Task
  is_overdue : Bool
  urgency : Int
  duration_score : Int
  total : Int
deriving DecidableEq, Repr

/-- logic.rs: `ScoreBreakdown`. -/
structure ScoreBreakdown where
  urgency : Int
  priority : Int
  duration_score : Int
  total : Int
deriving DecidableEq, Repr

/-- logic.rs: `PlanItem`. -/
structure PlanItem where
  task_id : String
  title : String
  start : DateTimeFO
  «end» : DateTimeFO
  score_breakdown : ScoreBreakdown
  is_overdue : Bool
deriving DecidableEq, Repr

/-- logic.rs: `UnplannedItem`. -/
structure UnplannedItem where
  task_id : String
  reason : String
deriving DecidableEq, Repr

/-- logic.rs: `relevant_tasks`. Two chained `filter`s, as in the source. -/
def relevant_tasks (tasks : List Task) (date : Int) (now : DateTimeFO) :
    List Task :=
  (tasks.filter (fun t => decide (t.status ≠ TaskStatus.Done))).filter
    (fun t =>
      decide (now.instant > t.due_at.instant) || decide (dateNaive t.due_at = date))

/-- logic.rs: `urgency_score`. -/
def urgency_score (due_at now : DateTimeFO) : Int :=
  if now.instant > due_at.instant then 5
  else
    let secs := due_at.instant - now.instant
    if secs ≤ 0 then 5
    else
      let day : Int := 24 * 60 * 60
      if secs < 1 * day then 5
      else if secs < 2 * day then 4
      else if secs < 3 * day then 3
      else if secs < 4 * day then 2
      else if secs < 5 * day then 1
      else 0

/-- logic.rs: `duration_score`. -/
def duration_score (duration_min : Int) : Int :=
  let bucket : Int :=
    if duration_min ≤ 60 then 1
    else if duration_min ≤ 120 then 2
    else if duration_min ≤ 180 then 3
    else if duration_min ≤ 240 then 4
    else 5
  6 - bucket

/-- The body of the `map` in `score_and_sort`: score one task. -/
def scoreTask (now : DateTimeFO) (t : Task) : ScoredTask :=
  { task := t
    is_overdue := decide (now.instant > t.due_at.instant)
    urgency := urgency_score t.due_at now
    duration_score := duration_score t.duration_min
    total := urgency_score t.due_at now + t.priority + duration_score t.duration_min }

/-- Three-way comparison on `Int`, the model of `i64::cmp`. -/
def intCmp (a b : Int) : Ordering :=
  if a < b then Ordering.lt else if a = b then Ordering.eq else Ordering.gt

/-- Three-way comparison on `String`, the model of `String::cmp`
(lexicographic; Rust compares UTF-8 bytes, which orders strings exactly as
code-point lexicographic order does). -/
def strCmp (a b : String) : Ordering :=
  if a < b then Ordering.lt else if a = b then Ordering.eq else Ordering.gt

/-- The comparator passed to `sort_by` in `score_and_sort`:
`b.total.cmp(&a.total).then_with(|| a.title.to_lowercase().cmp(&b.title.to_lowercase()))`. -/
def cmpScored (a b : ScoredTask) : Ordering :=
  (intCmp b.total a.total).then
    (strCmp a.task.title.toLower b.task.title.toLower)

/-- The non-descending boolean relation induced by `cmpScored`; a stable
`sort_by` orders its output so consecutive elements satisfy it. -/
def scoredLE (a b : ScoredTask) : Bool :=
  decide (cmpScored a b ≠ Ordering.gt)

/-- logic.rs: `score_and_sort`: map `scoreTask` over the tasks, then stable
sort by the comparator. -/
def score_and_sort (tasks : List Task) (now : DateTimeFO) : List ScoredTask :=
  (tasks.map (scoreTask now)).mergeSort scoredLE

/-- Numeric value of a decimal digit character, `none` otherwise. -/
def digitVal (c : Char) : Option Nat :=
  if '0' ≤ c ∧ c ≤ '9' then some (c.toNat - '0'.toNat) else none

/-- Accumulate decimal digits; fails on the first non-digit. -/
def parseNatAux : List Char → Nat → Option Nat
  | [], acc => some acc
  | c :: cs, acc =>
    match digitVal c with
    | some d => parseNatAux cs (acc * 10 + d)
    | none => none

/-- Model of `str::parse::<u32>` restricted to the plain-digit forms the
settings strings use: at least one digit, digits only, value below `2^32`
(Rust reports overflow as a parse error; accumulating in `Nat` and checking
the bound at the end accepts exactly the same strings). -/
def parseU32 (s : String) : Option Nat :=
  match s.data with
  | [] => none
  | cs =>
    match parseNatAux cs 0 with
    | some n => if n < 4294967296 then some n else none
    | none => none

/-- Split a character list at every occurrence of `sep`; a list with `n`
separators yields `n + 1` (possibly empty) pieces, exactly as the Rust
method `str::split` does. -/
def splitCharAux (sep : Char) : List Char → List Char → List String
  | [], acc => [String.mk acc.reverse]
  | c :: cs, acc =>
    if c = sep then String.mk acc.reverse :: splitCharAux sep cs []
    else splitCharAux sep cs (c :: acc)

/-- Model of `str::split(sep)` collected into a list. -/
def splitChar (s : String) (sep : Char) : List String :=
  splitCharAux sep s.data []

/-- Model of `NaiveDate::and_hms_opt` followed by interpreting the local
datetime as seconds: defined when `h < 24`, `m < 60`, `s < 60`. -/
def and_hms_opt (date : Int) (h m s : Nat) : Option Int :=
  if h < 24 && m < 60 && s < 60 then
    some (date * 86400 + (h : Int) * 3600 + (m : Int) * 60 + (s : Int))
  else none

/-- logic.rs: `parse_hhmm_to_today`. Splits on a colon, parses both parts,
builds the local datetime on `date` and resolves it in `offset`
(`FixedOffset::from_local_datetime` is always single-valued). -/
def parse_hhmm_to_today (date : Int) (hhmm : String) (offset : Int) :
    Option DateTimeFO :=
  match splitChar hhmm ':' with
  | [hs, ms] =>
    match parseU32 hs, parseU32 ms with
    | some h, some m =>
      match and_hms_opt date h m 0 with
      | some localSecs => some { instant := localSecs - offset, offset := offset }
      | none => none
    | _, _ => none
  | _ => none

/-- The `for st in scored_sorted` loop of `build_today_plan`, with the two
mutable accumulators (`cursor`, `remaining`) as explicit arguments. -/
def planLoop (day_end_dt : DateTimeFO) :
    List ScoredTask → DateTimeFO → Int → List PlanItem × List UnplannedItem
  | [], _, _ => ([], [])
  | st :: rest, cursor, remaining =>
    if remaining ≤ 0 then
      let r := planLoop day_end_dt rest cursor remaining
      (r.1, { task_id := st.task.id, reason := "insufficient_time" } :: r.2)
    else if st.task.duration_min ≤ 0 then
      let r := planLoop day_end_dt rest cursor remaining
      (r.1, { task_id := st.task.id, reason := "invalid_duration" } :: r.2)
    else
      let e := addMinutes cursor st.task.duration_min
      if day_end_dt.instant < e.instant ∨ remaining < st.task.duration_min then
        let r := planLoop day_end_dt rest cursor remaining
        (r.1, { task_id := st.task.id, reason := "insufficient_time" } :: r.2)
      else
        let r := planLoop day_end_dt rest e (remaining - st.task.duration_min)
        ({ task_id := st.task.id
           title := st.task.title
           start := cursor
           «end» := e
           score_breakdown :=
             { urgency := st.urgency
               priority := st.task.priority
               duration_score := st.duration_score
               total := st.total }
           is_overdue := st.is_overdue } :: r.1, r.2)

/-- logic.rs: `build_today_plan`. -/
def build_today_plan (scored_sorted : List ScoredTask) (date : Int)
    (now : DateTimeFO) (settings : DaySettings) (available_min : Int) :
    List PlanItem × List UnplannedItem :=
  let offset := now.offset
  let day_start_dt := (parse_hhmm_to_today date settings.day_start offset).getD now
  let day_end_dt :=
    (parse_hhmm_to_today date settings.day_end offset).getD (addHours now 8)
  let cursor := if day_start_dt.instant < now.instant then now else day_start_dt
  planLoop day_end_dt scored_sorted cursor available_min

/-- Sample task used to instantiate theorems at concrete inputs. -/
def task0 : Task :=
  { id := "a"
    title := "t"
    due_at := { instant := 0, offset := 0 }
    duration_min := 0
    priority := 3
    status := TaskStatus.Todo
    created_at := { instant := 0, offset := 0 }
    tags := none
    notes := none }

/-- Variant of `task0` with a positive duration and a second id. -/
def task1 : Task :=
  { task0 with id := "b", duration_min := 30 }

/-- Sample scored task wrapping `task0` (duration 0). -/
def st0 : ScoredTask :=
  { task := task0, is_overdue := true, urgency := 5, duration_score := 5, total := 13 }

/-- Sample scored task wrapping `task1` (duration 30). -/
def st1 : ScoredTask :=
  { task := task1, is_overdue := true, urgency := 5, duration_score := 5, total := 13 }

/-- Sample settings. -/
def settings0 : DaySettings :=
  { day_start := "09:00", day_end := "18:00", focus_block_min := 50 }

/-- Sample reference instant (the epoch, zero offset). -/
def dt0 : DateTimeFO :=
  { instant := 0, offset := 0 }

lemma intCmp_gt_iff {a b : Int} : intCmp a b = Ordering.gt ↔ b < a := by
  unfold intCmp
  split_ifs with h1 h2 <;> simp_all <;> omega

lemma intCmp_eq_iff {a b : Int} : intCmp a b = Ordering.eq ↔ a = b := by
  unfold intCmp
  split_ifs with h1 h2 <;> simp_all
  omega

lemma strCmp_gt_iff {a b : String} : strCmp a b = Ordering.gt ↔ b < a := by
  unfold strCmp
  split_ifs with h1 h2
  · exact ⟨fun h => h.elim, fun hba => absurd h1 (lt_asymm hba)⟩
  · subst h2
    exact ⟨fun h => h.elim, fun hba => absurd hba (lt_irrefl a)⟩
  · exact ⟨fun _ => lt_of_le_of_ne (not_lt.mp h1) (fun e => h2 e.symm), fun _ => rfl⟩

lemma then_eq_gt_iff {o1 o2 : Ordering} :
    o1.then o2 = Ordering.gt ↔ (o1 = Ordering.gt ∨ (o1 = Ordering.eq ∧ o2 = Ordering.gt)) := by
  cases o1 <;> simp [Ordering.then]

lemma scoredLE_iff (a b : ScoredTask) :
    scoredLE a b = true ↔
      (b.total < a.total ∨
        (a.total = b.total ∧ a.task.title.toLower ≤ b.task.title.toLower)) := by
  unfold scoredLE cmpScored
  rw [decide_eq_true_iff]
  rw [Ne, then_eq_gt_iff, intCmp_gt_iff, intCmp_eq_iff, strCmp_gt_iff]
  push_neg
  constructor
  · rintro ⟨h1, h2⟩
    rcases lt_or_eq_of_le h1 with h | h
    · exact Or.inl h
    · exact Or.inr ⟨h.symm, h2 h⟩
  · rintro (h | ⟨h1, h2⟩)
    · exact ⟨h.le, fun he => absurd he (by omega)⟩
    · exact ⟨le_of_eq h1.symm, fun _ => h2⟩

lemma scoredLE_trans (a b c : ScoredTask) :
    scoredLE a b = true → scoredLE b c = true → scoredLE a c = true := by
  rw [scoredLE_iff, scoredLE_iff, scoredLE_iff]
  rintro (h1 | ⟨h1, h1t⟩) (h2 | ⟨h2, h2t⟩)
  · exact Or.inl (by omega)
  · exact Or.inl (by omega)
  · exact Or.inl (by omega)
  · exact Or.inr ⟨by omega, le_trans h1t h2t⟩

lemma scoredLE_total (a b : ScoredTask) :
    (scoredLE a b || scoredLE b a) = true := by
  rw [Bool.or_eq_true, scoredLE_iff, scoredLE_iff]
  rcases lt_trichotomy a.total b.total with h | h | h
  · exact Or.inr (Or.inl h)
  · rcases le_total a.task.title.toLower b.task.title.toLower with ht | ht
    · exact Or.inl (Or.inr ⟨h, ht⟩)
    · exact Or.inr (Or.inr ⟨h.symm, ht⟩)
  · exact Or.inl (Or.inl h)

/-- Claim C6: `urgency_score` returns 5 when `now` is at or past `due_at`;
otherwise, with `s` the remaining seconds, it returns 5 for `s` in the first
day, 4 for the second, 3 for the third, 2 for the fourth, 1 for the fifth,
and 0 from five days on; the result always lies in `0..5`. -/
theorem C6_urgency_buckets (due_at now : DateTimeFO) :
    (due_at.instant ≤ now.instant → urgency_score due_at now = 5) ∧
    (now.instant < due_at.instant →
      ((due_at.instant - now.instant < 86400 → urgency_score due_at now = 5) ∧
       (86400 ≤ due_at.instant - now.instant → due_at.instant - now.instant < 172800 →
         urgency_score due_at now = 4) ∧
       (172800 ≤ due_at.instant - now.instant → due_at.instant - now.instant < 259200 →
         urgency_score due_at now = 3) ∧
       (259200 ≤ due_at.instant - now.instant → due_at.instant - now.instant < 345600 →
         urgency_score due_at now = 2) ∧
       (345600 ≤ due_at.instant - now.instant → due_at.instant - now.instant < 432000 →
         urgency_score due_at now = 1) ∧
       (432000 ≤ due_at.instant - now.instant → urgency_score due_at now = 0))) ∧
    (0 ≤ urgency_score due_at now ∧ urgency_score due_at now ≤ 5) := by
  simp only [urgency_score]
  split_ifs <;> omega

/-- Witness for C6 at concrete instants. -/
theorem C6_urgency_buckets_witness :
    ((0 : Int) < 100000 ∧ (86400 : Int) ≤ 100000 - 0 ∧ (100000 : Int) - 0 < 172800) ∧
    urgency_score { instant := 100000, offset := 0 } { instant := 0, offset := 0 } = 4 :=
  ⟨by decide,
    ((C6_urgency_buckets { instant := 100000, offset := 0 }
        { instant := 0, offset := 0 }).2.1 (by decide)).2.1 (by decide) (by decide)⟩

/-- Claim C7: `duration_score` buckets durations at 60, 120, 180 and 240
minutes, is monotonically non-increasing, and always lies in `1..5`. -/
theorem C7_duration_buckets (d : Int) :
    ((d ≤ 60 → duration_score d = 5) ∧
     (60 < d → d ≤ 120 → duration_score d = 4) ∧
     (120 < d → d ≤ 180 → duration_score d = 3) ∧
     (180 < d → d ≤ 240 → duration_score d = 2) ∧
     (240 < d → duration_score d = 1)) ∧
    (∀ d2 : Int, d ≤ d2 → duration_score d2 ≤ duration_score d) ∧
    (1 ≤ duration_score d ∧ duration_score d ≤ 5) := by
  refine ⟨?_, fun d2 _ => ?_, ?_⟩ <;> simp only [duration_score] <;> split_ifs <;> omega

lemma planLoop_length (de : DateTimeFO) (l : List ScoredTask) (c : DateTimeFO) (r : Int) :
    (planLoop de l c r).1.length + (planLoop de l c r).2.length = l.length := by
  induction l generalizing c r with
  | nil => simp [planLoop]
  | cons st rest ih =>
    simp only [planLoop]
    split_ifs
    all_goals dsimp only
    all_goals simp only [List.length_cons]
    all_goals
      (have ha := ih c r
       have hb := ih (addMinutes c st.task.duration_min) (r - st.task.duration_min)
       omega)

lemma planLoop_ids_perm (de : DateTimeFO) (l : List ScoredTask) (c : DateTimeFO) (r : Int) :
    ((planLoop de l c r).1.map PlanItem.task_id ++
        (planLoop de l c r).2.map UnplannedItem.task_id).Perm
      (l.map (fun st => st.task.id)) := by
  induction l generalizing c r with
  | nil => simp [planLoop]
  | cons st rest ih =>
    simp only [planLoop]
    split_ifs
    · dsimp only
      simp only [List.map_cons]
      exact List.Perm.trans List.perm_middle ((ih c r).cons st.task.id)
    · dsimp only
      simp only [List.map_cons]
      exact List.Perm.trans List.perm_middle ((ih c r).cons st.task.id)
    · dsimp only
      simp only [List.map_cons]
      exact List.Perm.trans List.perm_middle ((ih c r).cons st.task.id)
    · dsimp only
      simp only [List.map_cons, List.cons_append]
      exact (ih (addMinutes c st.task.duration_min) (r - st.task.duration_min)).cons st.task.id

lemma planLoop_partition (de : DateTimeFO) (l : List ScoredTask) (c : DateTimeFO) (r : Int)
    (h : (l.map (fun st => st.task.id)).Nodup) (st : ScoredTask) (hst : st ∈ l) :
    (st.task.id ∈ (planLoop de l c r).1.map PlanItem.task_id ∧
        st.task.id ∉ (planLoop de l c r).2.map UnplannedItem.task_id) ∨
    (st.task.id ∉ (planLoop de l c r).1.map PlanItem.task_id ∧
        st.task.id ∈ (planLoop de l c r).2.map UnplannedItem.task_id) := by
  have hperm := planLoop_ids_perm de l c r
  have hmem : st.task.id ∈ (planLoop de l c r).1.map PlanItem.task_id ++
      (planLoop de l c r).2.map UnplannedItem.task_id :=
    hperm.mem_iff.mpr (List.mem_map_of_mem _ hst)
  have hnd := hperm.nodup_iff.mpr h
  have hdisj := (List.nodup_append.mp hnd).2.2
  rcases List.mem_append.mp hmem with h1 | h2
  · exact Or.inl ⟨h1, fun h2 => hdisj h1 h2⟩
  · exact Or.inr ⟨fun h1 => hdisj h1 h2, h2⟩

lemma planLoop_chain (de : DateTimeFO) (l : List ScoredTask) (c : DateTimeFO) (r : Int) :
    (∀ it ∈ (planLoop de l c r).1,
        c.instant ≤ it.start.instant ∧ it.start.instant < it.«end».instant) ∧
    (planLoop de l c r).1.Pairwise
      (fun a b => a.«end».instant ≤ b.start.instant ∧ a.start.instant < b.start.instant) := by
  induction l generalizing c r with
  | nil => simp [planLoop]
  | cons st rest ih =>
    simp only [planLoop]
    split_ifs with h1 h2 h3
    · exact ih c r
    · exact ih c r
    · exact ih c r
    · dsimp only
      obtain ⟨hmem, hpw⟩ := ih (addMinutes c st.task.duration_min) (r - st.task.duration_min)
      have hcur : c.instant < (addMinutes c st.task.duration_min).instant := by
        simp only [addMinutes]
        omega
      constructor
      · intro it hit
        rcases List.mem_cons.mp hit with rfl | hit2
        · exact ⟨le_refl _, hcur⟩
        · obtain ⟨ha, hb⟩ := hmem it hit2
          exact ⟨le_trans hcur.le ha, hb⟩
      · refine List.Pairwise.cons ?_ hpw
        intro b hb
        obtain ⟨ha, _⟩ := hmem b hb
        exact ⟨ha, lt_of_lt_of_le hcur ha⟩

lemma planLoop_nonpos (de : DateTimeFO) (l : List ScoredTask) (c : DateTimeFO) (r : Int)
    (h : r ≤ 0) :
    planLoop de l c r =
      ([], l.map (fun st => { task_id := st.task.id, reason := "insufficient_time" })) := by
  induction l generalizing c with
  | nil => simp [planLoop]
  | cons st rest ih =>
    simp only [planLoop, if_pos h]
    simp [ih c]

lemma planLoop_invalid_mem (de : DateTimeFO) (l : List ScoredTask) (c : DateTimeFO) (r : Int)
    (st : ScoredTask) (hmem : st ∈ l) (hdur : st.task.duration_min ≤ 0) :
    st.task.id ∈ (planLoop de l c r).2.map UnplannedItem.task_id := by
  induction l generalizing c r with
  | nil => cases hmem
  | cons st2 rest ih =>
    rcases List.mem_cons.mp hmem with rfl | hmem2
    · simp only [planLoop]
      by_cases h1 : r ≤ 0
      · rw [if_pos h1]
        simp
      · rw [if_neg h1, if_pos hdur]
        simp
    · simp only [planLoop]
      split_ifs
      · dsimp only
        simp only [List.map_cons]
        exact List.mem_cons_of_mem _ (ih c r hmem2)
      · dsimp only
        simp only [List.map_cons]
        exact List.mem_cons_of_mem _ (ih c r hmem2)
      · dsimp only
        simp only [List.map_cons]
        exact List.mem_cons_of_mem _ (ih c r hmem2)
      · dsimp only
        exact ih (addMinutes c st2.task.duration_min) (r - st2.task.duration_min) hmem2

/-- Claim C1: every input task is accounted for exactly once —
`|plan| + |unplanned| = |scored_sorted|`, and (the ids of distinct tasks
being distinct, per the data model) the id of each input task lands in
exactly one of the two output lists. -/
theorem C1_partition (scored_sorted : List ScoredTask) (date : Int) (now : DateTimeFO)
    (settings : DaySettings) (available_min : Int)
    (h : (scored_sorted.map (fun st => st.task.id)).Nodup) :
    ((build_today_plan scored_sorted date now settings available_min).1.length +
        (build_today_plan scored_sorted date now settings available_min).2.length =
      scored_sorted.length) ∧
    (∀ st ∈ scored_sorted,
      (st.task.id ∈
          (build_today_plan scored_sorted date now settings available_min).1.map
            PlanItem.task_id ∧
        st.task.id ∉
          (build_today_plan scored_sorted date now settings available_min).2.map
            UnplannedItem.task_id) ∨
      (st.task.id ∉
          (build_today_plan scored_sorted date now settings available_min).1.map
            PlanItem.task_id ∧
        st.task.id ∈
          (build_today_plan scored_sorted date now settings available_min).2.map
            UnplannedItem.task_id)) := by
  simp only [build_today_plan]
  exact ⟨planLoop_length _ _ _ _, fun st hst => planLoop_partition _ _ _ _ h st hst⟩

/-- Witness for C1 at a concrete two-task input. -/
theorem C1_partition_witness :
    ([st0, st1].map (fun st => st.task.id)).Nodup ∧
    ((build_today_plan [st0, st1] 0 dt0 settings0 100).1.length +
        (build_today_plan [st0, st1] 0 dt0 settings0 100).2.length = 2) :=
  ⟨by decide, (C1_partition [st0, st1] 0 dt0 settings0 100 (by decide)).1⟩

/-- Claim C2: placed items are pairwise non-overlapping (each earlier item
ends at or before a later one starts) and start times strictly increase. -/
theorem C2_plan_ordered (scored_sorted : List ScoredTask) (date : Int) (now : DateTimeFO)
    (settings : DaySettings) (available_min : Int) :
    (build_today_plan scored_sorted date now settings available_min).1.Pairwise
      (fun a b => a.«end».instant ≤ b.start.instant ∧ a.start.instant < b.start.instant) := by
  simp only [build_today_plan]
  exact (planLoop_chain _ _ _ _).2

/-- Claim C3: with positive remaining budget and positive duration, a task is
rejected with `insufficient_time` exactly when its candidate end passes the
day-end instant or its duration exceeds the budget, leaving cursor and
budget unchanged for the rest of the scan; otherwise it is placed spanning
`[cursor, cursor + duration)`, the cursor advances to that end and the
budget shrinks by the duration. -/
theorem C3_step (de : DateTimeFO) (st : ScoredTask) (rest : List ScoredTask)
    (c : DateTimeFO) (r : Int) (h1 : 0 < r) (h2 : 0 < st.task.duration_min) :
    ((de.instant < (addMinutes c st.task.duration_min).instant ∨ r < st.task.duration_min) →
      planLoop de (st :: rest) c r =
        ((planLoop de rest c r).1,
          { task_id := st.task.id, reason := "insufficient_time" } ::
            (planLoop de rest c r).2)) ∧
    (¬(de.instant < (addMinutes c st.task.duration_min).instant ∨ r < st.task.duration_min) →
      planLoop de (st :: rest) c r =
        ({ task_id := st.task.id
           title := st.task.title
           start := c
           «end» := addMinutes c st.task.duration_min
           score_breakdown :=
             { urgency := st.urgency
               priority := st.task.priority
               duration_score := st.duration_score
               total := st.total }
           is_overdue := st.is_overdue } ::
            (planLoop de rest (addMinutes c st.task.duration_min)
              (r - st.task.duration_min)).1,
          (planLoop de rest (addMinutes c st.task.duration_min)
            (r - st.task.duration_min)).2)) := by
  constructor
  · intro hc
    simp only [planLoop]
    rw [if_neg (by omega), if_neg (by omega), if_pos hc]
  · intro hc
    simp only [planLoop]
    rw [if_neg (by omega), if_neg (by omega), if_neg hc]

/-- Witness for C3: a 30-minute task against a 20-minute budget is rejected
with `insufficient_time` and the loop state is unchanged. -/
theorem C3_step_witness :
    ((0 : Int) < 20 ∧ (0 : Int) < st1.task.duration_min ∧ (20 : Int) < st1.task.duration_min) ∧
    planLoop { instant := 10000, offset := 0 } [st1] dt0 20 =
      ((planLoop { instant := 10000, offset := 0 } [] dt0 20).1,
        { task_id := st1.task.id, reason := "insufficient_time" } ::
          (planLoop { instant := 10000, offset := 0 } [] dt0 20).2) :=
  ⟨by decide,
    (C3_step { instant := 10000, offset := 0 } st1 [] dt0 20 (by decide) (by decide)).1
      (Or.inr (by decide))⟩

/-- Counterexample to claim C4 as stated: with `available_min = 0` a task
with `duration_min = 0` is reported with reason `insufficient_time`, not
`invalid_duration` — the budget check precedes the duration check. -/
theorem C4_counterexample :
    st0.task.duration_min = 0 ∧
    (build_today_plan [st0] 0 dt0 settings0 0).2 =
      [{ task_id := st0.task.id, reason := "insufficient_time" }] ∧
    "insufficient_time" ≠ "invalid_duration" := by
  refine ⟨by decide, by decide, by decide⟩

/-- Claim C4 (amended): every task with non-positive duration always ends up
unplanned; when it is considered while the remaining budget is positive its
reason is `invalid_duration` and the cursor and budget are untouched for the
rest of the scan, and when the budget is already exhausted its reason is
`insufficient_time`. -/
theorem C4_invalid_duration :
    (∀ (scored_sorted : List ScoredTask) (date : Int) (now : DateTimeFO)
        (settings : DaySettings) (available_min : Int) (st : ScoredTask),
      st ∈ scored_sorted → st.task.duration_min ≤ 0 →
      st.task.id ∈
        (build_today_plan scored_sorted date now settings available_min).2.map
          UnplannedItem.task_id) ∧
    (∀ (de : DateTimeFO) (st : ScoredTask) (rest : List ScoredTask) (c : DateTimeFO)
        (r : Int), 0 < r → st.task.duration_min ≤ 0 →
      planLoop de (st :: rest) c r =
        ((planLoop de rest c r).1,
          { task_id := st.task.id, reason := "invalid_duration" } ::
            (planLoop de rest c r).2)) ∧
    (∀ (de : DateTimeFO) (st : ScoredTask) (rest : List ScoredTask) (c : DateTimeFO)
        (r : Int), r ≤ 0 →
      planLoop de (st :: rest) c r =
        ((planLoop de rest c r).1,
          { task_id := st.task.id, reason := "insufficient_time" } ::
            (planLoop de rest c r).2)) := by
  refine ⟨?_, ?_, ?_⟩
  · intro scored_sorted date now settings available_min st hst hdur
    simp only [build_today_plan]
    exact planLoop_invalid_mem _ _ _ _ st hst hdur
  · intro de st rest c r hr hdur
    simp only [planLoop]
    rw [if_neg (by omega), if_pos hdur]
  · intro de st rest c r hr
    simp only [planLoop]
    rw [if_pos hr]

/-- Witness for C4 (amended): the duration-0 task `st0`, considered with a
positive budget, is rejected with `invalid_duration`. -/
theorem C4_invalid_duration_witness :
    ((0 : Int) < 100 ∧ st0.task.duration_min ≤ 0) ∧
    planLoop { instant := 10000, offset := 0 } [st0] dt0 100 =
      ((planLoop { instant := 10000, offset := 0 } [] dt0 100).1,
        { task_id := st0.task.id, reason := "invalid_duration" } ::
          (planLoop { instant := 10000, offset := 0 } [] dt0 100).2) :=
  ⟨by decide,
    C4_invalid_duration.2.1 { instant := 10000, offset := 0 } st0 [] dt0 100
      (by decide) (by decide)⟩

/-- Claim C5: once the remaining budget is non-positive when a task is
considered, that task and every later task is rejected with
`insufficient_time` and nothing further is placed; in particular
`available_min ≤ 0` yields an empty plan and every task unplanned with that
reason. -/
theorem C5_budget_exhausted :
    (∀ (de : DateTimeFO) (l : List ScoredTask) (c : DateTimeFO) (r : Int), r ≤ 0 →
      planLoop de l c r =
        ([], l.map (fun st => { task_id := st.task.id, reason := "insufficient_time" }))) ∧
    (∀ (scored_sorted : List ScoredTask) (date : Int) (now : DateTimeFO)
        (settings : DaySettings) (available_min : Int), available_min ≤ 0 →
      build_today_plan scored_sorted date now settings available_min =
        ([], scored_sorted.map
          (fun st => { task_id := st.task.id, reason := "insufficient_time" }))) := by
  refine ⟨fun de l c r h => planLoop_nonpos de l c r h, ?_⟩
  intro scored_sorted date now settings available_min h
  simp only [build_today_plan]
  exact planLoop_nonpos _ _ _ _ h

/-- Witness for C5: `available_min = 0` with a non-empty input leaves the
plan empty and every task unplanned with `insufficient_time`. -/
theorem C5_budget_exhausted_witness :
    ((0 : Int) ≤ 0) ∧
    build_today_plan [st0, st1] 0 dt0 settings0 0 =
      ([], [st0, st1].map
        (fun st => { task_id := st.task.id, reason := "insufficient_time" })) :=
  ⟨by decide, C5_budget_exhausted.2 [st0, st1] 0 dt0 settings0 0 (by decide)⟩

/-- Witness for C7 at concrete durations. -/
theorem C7_duration_buckets_witness :
    ((60 : Int) < 61 ∧ (61 : Int) ≤ 120 ∧ duration_score 61 = 4) ∧
    ((61 : Int) ≤ 200 ∧ duration_score 200 ≤ duration_score 61) :=
  ⟨⟨by decide, by decide, (C7_duration_buckets 61).1.2.1 (by decide) (by decide)⟩,
   ⟨by decide, (C7_duration_buckets 61).2.1 200 (by decide)⟩⟩

/-- Claim C8: `score_and_sort` scores every task (total = urgency + priority
+ duration_score), returns a permutation of the scored input, sorted by
descending total with exact ties broken by ascending case-insensitive title,
and is stable on any remaining ties (equal total and equal lowercased title
keep their input relative order). -/
theorem C8_score_and_sort (tasks : List Scheduler.Task) (now : DateTimeFO) :
    (score_and_sort tasks now).Perm (tasks.map (scoreTask now)) ∧
    (∀ st ∈ score_and_sort tasks now,
      st.urgency = urgency_score st.task.due_at now ∧
      st.duration_score = duration_score st.task.duration_min ∧
      st.total = st.urgency + st.task.priority + st.duration_score) ∧
    (score_and_sort tasks now).Pairwise
      (fun a b => b.total < a.total ∨
        (a.total = b.total ∧ a.task.title.toLower ≤ b.task.title.toLower)) ∧
    (∀ (tot : Int) (low : String),
      (score_and_sort tasks now).filter
          (fun st => decide (st.total = tot) && decide (st.task.title.toLower = low)) =
        (tasks.map (scoreTask now)).filter
          (fun st => decide (st.total = tot) && decide (st.task.title.toLower = low))) := by
  refine ⟨List.mergeSort_perm _ _, ?_, ?_, ?_⟩
  · intro st hst
    have hmem : st ∈ tasks.map (scoreTask now) :=
      (List.mergeSort_perm (tasks.map (scoreTask now)) scoredLE).subset hst
    obtain ⟨t, _, rfl⟩ := List.mem_map.mp hmem
    exact ⟨rfl, rfl, rfl⟩
  · exact List.Pairwise.imp (fun {a b} h => (scoredLE_iff a b).mp h)
      (List.sorted_mergeSort scoredLE_trans scoredLE_total (tasks.map (scoreTask now)))
  · intro tot low
    simp only [score_and_sort]
    set f : ScoredTask → Bool :=
      fun st => decide (st.total = tot) && decide (st.task.title.toLower = low) with hf
    set L := tasks.map (scoreTask now) with hL
    have hall : ∀ a ∈ L.filter f, f a = true := fun a ha => (List.mem_filter.mp ha).2
    have hpw : (L.filter f).Pairwise (fun a b => scoredLE a b = true) := by
      apply List.pairwise_of_forall_mem_list
      intro a ha b hb
      have hfa := hall a ha
      have hfb := hall b hb
      simp only [hf, Bool.and_eq_true, decide_eq_true_iff] at hfa hfb
      rw [scoredLE_iff]
      right
      refine ⟨by omega, ?_⟩
      rw [hfa.2, hfb.2]
    have hstable : List.Sublist (L.filter f) (L.mergeSort scoredLE) :=
      List.sublist_mergeSort scoredLE_trans scoredLE_total hpw (List.filter_sublist L)
    have hidem : (L.filter f).filter f = L.filter f := List.filter_eq_self.mpr hall
    have h1 : List.Sublist (L.filter f) ((L.mergeSort scoredLE).filter f) := by
      have h2 := List.Sublist.filter f hstable
      rwa [hidem] at h2
    have hperm : ((L.mergeSort scoredLE).filter f).Perm (L.filter f) :=
      (List.mergeSort_perm L scoredLE).filter f
    exact (h1.eq_of_length hperm.length_eq.symm).symm

/-- Witness for C8 on a singleton list: the scored task is a member of the
output and its total is the sum of its components. -/
theorem C8_score_and_sort_witness :
    scoreTask dt0 task0 ∈ score_and_sort [task0] dt0 ∧
    (scoreTask dt0 task0).total =
      (scoreTask dt0 task0).urgency + (scoreTask dt0 task0).task.priority +
        (scoreTask dt0 task0).duration_score :=
  ⟨by simp [score_and_sort],
    ((C8_score_and_sort [task0] dt0).2.1 (scoreTask dt0 task0)
      (by simp [score_and_sort])).2.2⟩

/-- Claim C9: `relevant_tasks` is exactly the order-preserving filter keeping
non-done tasks that are overdue or due on the target date; empty input
yields empty output. -/
theorem C9_relevant_tasks (tasks : List Scheduler.Task) (date : Int) (now : DateTimeFO) :
    relevant_tasks tasks date now =
      tasks.filter (fun t =>
        decide (t.status ≠ TaskStatus.Done ∧
          (now.instant > t.due_at.instant ∨ dateNaive t.due_at = date))) ∧
    (relevant_tasks tasks date now).Sublist tasks ∧
    (∀ t : Scheduler.Task, t ∈ relevant_tasks tasks date now ↔
      (t ∈ tasks ∧ t.status ≠ TaskStatus.Done ∧
        (now.instant > t.due_at.instant ∨ dateNaive t.due_at = date))) ∧
    relevant_tasks [] date now = ([] : List Scheduler.Task) := by
  refine ⟨?_, ?_, ?_, rfl⟩
  · unfold relevant_tasks
    rw [List.filter_filter]
    apply List.filter_congr
    intro x _
    simp [Bool.decide_and, Bool.decide_or, Bool.and_comm]
  · unfold relevant_tasks
    exact (List.filter_sublist _).trans (List.filter_sublist _)
  · intro t
    simp only [relevant_tasks, List.mem_filter, decide_eq_true_iff, Bool.or_eq_true,
      gt_iff_lt]
    tauto

/-- Witness for C9 at a concrete input: the overdue task `task1` is kept. -/
theorem C9_relevant_tasks_witness :
    relevant_tasks [task1] 0 { instant := 50, offset := 0 } =
      [task1].filter (fun t =>
        decide (t.status ≠ TaskStatus.Done ∧
          (({ instant := 50, offset := 0 } : DateTimeFO).instant > t.due_at.instant ∨
            dateNaive t.due_at = 0))) :=
  (C9_relevant_tasks [task1] 0 { instant := 50, offset := 0 }).1

/-- Claim C10: a non-positive duration gets the maximum `duration_score` of
5, so scoring and ranking treat invalid-duration tasks like any other task
(the defect is only caught at placement). -/
theorem C10_invalid_scored_max (tasks : List Scheduler.Task) (now : DateTimeFO) :
    (∀ d : Int, d ≤ 0 → duration_score d = 5) ∧
    (score_and_sort tasks now).Perm (tasks.map (scoreTask now)) ∧
    (∀ t ∈ tasks, t.duration_min ≤ 0 →
      (scoreTask now t).duration_score = 5 ∧
      (scoreTask now t).total = urgency_score t.due_at now + t.priority + 5 ∧
      scoreTask now t ∈ score_and_sort tasks now) := by
  refine ⟨?_, List.mergeSort_perm _ _, ?_⟩
  · intro d hd
    simp only [duration_score]
    split_ifs <;> omega
  · intro t ht hd
    have h5 : duration_score t.duration_min = 5 := by
      simp only [duration_score]
      split_ifs <;> omega
    refine ⟨?_, ?_, ?_⟩
    · simpa [scoreTask] using h5
    · simp [scoreTask, h5]
    · have hmem : scoreTask now t ∈ tasks.map (scoreTask now) := List.mem_map_of_mem _ ht
      exact ((List.mergeSort_perm (tasks.map (scoreTask now)) scoredLE).mem_iff).mpr hmem

/-- Witness for C10: the duration-0 task `task0` scores the maximal 5 and is
ranked (it appears in the scored output). -/
theorem C10_invalid_scored_max_witness :
    (task0 ∈ [task0] ∧ task0.duration_min ≤ 0) ∧
    ((scoreTask dt0 task0).duration_score = 5 ∧
      scoreTask dt0 task0 ∈ score_and_sort [task0] dt0) :=
  ⟨⟨by decide, by decide⟩,
    ⟨((C10_invalid_scored_max [task0] dt0).2.2 task0 (by decide) (by decide)).1,
     ((C10_invalid_scored_max [task0] dt0).2.2 task0 (by decide) (by decide)).2.2⟩⟩

/-- Witness for C2 at a concrete input (the theorem has no hypothesis; this
instantiates it). -/
theorem C2_plan_ordered_witness :
    (build_today_plan [st0, st1] 0 dt0 settings0 100).1.Pairwise
      (fun a b => a.«end».instant ≤ b.start.instant ∧ a.start.instant < b.start.instant) :=
  C2_plan_ordered [st0, st1] 0 dt0 settings0 100

end Scheduler
